import Mathlib

/-!
Verification of the music-downloader command-line front end and of its fetch
pipeline contract.

The repository ships the `click`-based command-line layer in
`src/downloader/cli.py` and `src/downloader/cli/main.py`: the `main` group and
the `about`, `cookies` and `fetch` commands, each declared with its options,
argument arities, value ranges and choice sets.  Those declarations are
embedded here directly.  The command bodies (credential store, host dispatch,
track resolution, the scheduler and the conflict resolver) are not present in
the source tree; where a property depends on them, the missing component is
modelled from the specification and the definition says so in its doc comment.
-/

namespace Downloader

/-- Case folding used by the argument layer: `click.Choice` with
`case_sensitive=False` compares the token and each choice after lowering.
Implemented structurally over the character list so it evaluates by kernel
reduction. -/
def lowerStr (s : String) : String := String.mk (s.data.map Char.toLower)

/-- A `click.Choice(choices, case_sensitive=False)` lookup: the token is
matched case-insensitively against the declared choices and normalised to the
first (hence, for the disjoint choice sets used here, the unique) matching
canonical choice. -/
def choiceMatch (choices : List String) (tok : String) : Option String :=
  choices.find? (fun c => lowerStr c == lowerStr tok)

/-- The `--conflict` choice set of the `fetch` command
(`click.Choice(["ERROR", "IGNORE", "OVERRIDE"], case_sensitive=False)`). -/
def conflictChoices : List String := ["ERROR", "IGNORE", "OVERRIDE"]

/-- The `action` choice set of the `cookies` command
(`click.Choice(["DELETE", "GET", "SET"], case_sensitive=False)`). -/
def cookieActionChoices : List String := ["DELETE", "GET", "SET"]

/-- A `click.IntRange(lo, hi)` check without clamping: a supplied value
outside the closed interval is rejected. -/
def intRange (lo hi n : Int) : Option Int :=
  if lo ≤ n ∧ n ≤ hi then some n else none

/-- The parsed arguments of the `fetch` command. -/
structure FetchArgs where
  targets : List String
  limit : Int
  conflict : String
  dest : String
deriving Repr, DecidableEq

/-- Argument processing of `fetch`, as declared in the source: `targets` is a
variadic argument (`nargs=-1`, no minimum count), `--limit` defaults to 4 and
is constrained to `IntRange(1, 8)`, `--conflict` defaults to `ERROR` and is a
case-insensitive choice, `--dest` is required. -/
def parseFetch (targets : List String) (limit : Option Int)
    (conflict : Option String) (dest : Option String) : Option FetchArgs :=
  match dest with
  | none => none
  | some d =>
    match (match limit with
           | none => some (4 : Int)
           | some n => intRange 1 8 n) with
    | none => none
    | some l =>
      match (match conflict with
             | none => some "ERROR"
             | some c => choiceMatch conflictChoices c) with
      | none => none
      | some c => some ⟨targets, l, c, d⟩

/-- The parsed arguments of the `cookies` command. -/
structure CookiesArgs where
  action : String
  domain : String
  key : Option String
  value : Option String
deriving Repr, DecidableEq

/-- Argument processing of `cookies`, as declared in the source: the
positional `action` is a case-insensitive choice among DELETE, GET and SET,
`--domain` is required, `--key` and `--value` are optional at the parsing
layer. -/
def parseCookies (action : String) (domain key value : Option String) :
    Option CookiesArgs :=
  match choiceMatch cookieActionChoices action, domain with
  | some a, some d => some ⟨a, d, key, value⟩
  | _, _ => none

/-- Modelled from the spec: the per-action arity validation of the `cookies`
command body, which is absent from the source tree.  GET requires the key,
SET requires the key and the value, DELETE accepts the domain alone or the
domain plus a key. -/
def cookiesArityOk (a : CookiesArgs) : Bool :=
  match a.action with
  | "GET" => a.key.isSome
  | "SET" => a.key.isSome && a.value.isSome
  | "DELETE" => true
  | _ => false

/-- Whether a `cookies` invocation is accepted: the argument layer parses it
and the action-specific arity requirements hold. -/
def cookiesAccept (action : String) (domain key value : Option String) : Bool :=
  match parseCookies action domain key value with
  | none => false
  | some a => cookiesArityOk a

/-- A stored cookie: domain, key and value. -/
abbrev CookieRecord := String × String × String

/-- Modelled from the spec: CredentialStore lookup, the value bound to a
(domain, key) pair. -/
def storeGet (s : List CookieRecord) (d k : String) : Option String :=
  (s.find? (fun r => r.1 == d && r.2.1 == k)).map (fun r => r.2.2)

/-- Modelled from the spec: CredentialStore set, which overwrites any existing
record of the same (domain, key) pair. -/
def storeSet (s : List CookieRecord) (d k v : String) : List CookieRecord :=
  (d, k, v) :: s.filter (fun r => !(r.1 == d && r.2.1 == k))

/-- Modelled from the spec: CredentialStore delete with domain and key, which
removes exactly the record of that (domain, key) pair. -/
def storeDeleteKey (s : List CookieRecord) (d k : String) : List CookieRecord :=
  s.filter (fun r => !(r.1 == d && r.2.1 == k))

/-- Modelled from the spec: CredentialStore delete with only a domain, which
removes every record of that domain. -/
def storeDeleteDomain (s : List CookieRecord) (d : String) : List CookieRecord :=
  s.filter (fun r => !(r.1 == d))

/-- The CredentialStore invariant: (domain, key) pairs are unique. -/
def storeWF (s : List CookieRecord) : Prop :=
  (s.map (fun r => (r.1, r.2.1))).Nodup

instance (s : List CookieRecord) : Decidable (storeWF s) := by
  unfold storeWF; infer_instance

/-- The supported host domains.  The `fetch` docstring lists the supported
sources: Yandex Music, domain `yandex.ru`. -/
def supportedDomains : List String := ["yandex.ru"]

/-- Modelled from the spec: the per-host description printed by `about` for a
supported domain (taken from the host module), absent from the source tree. -/
def hostInfo (domain : String) : Option String :=
  if domain = "yandex.ru" then some "Yandex Music (domain yandex.ru, key Session_id)"
  else none

/-- Modelled from the spec: the package information printed by `about` when no
domain is given. -/
def packageInfo : String :=
  "Music downloader allows to fetch, update and track music content."

/-- Modelled from the spec: the text printed by the `about` command, whose body
is absent from the source tree.  With no domain (the `click` default is the
empty string) it prints package information; with a supported domain, that
host's description; with any other domain, the fixed unsupported-domain
message. -/
def aboutOutput (domain : String) : String :=
  if domain = "" then packageInfo
  else
    match hostInfo domain with
    | some info => info
    | none => domain ++ " domain is not supported."

/-- Modelled from the spec: the exit code of the `about` command, which reports
and exits successfully for every domain, supported or not. -/
def aboutExitCode (_domain : String) : Nat := 0

/-- A resolved track: identity and metadata, immutable once resolved. -/
structure Track where
  id : String
  title : String
  artist : String
  album : String
  cover : String
  audio : String
deriving Repr, DecidableEq

/-- The conflict policy chosen for a whole fetch invocation. -/
inductive ConflictDecision
  | error
  | ignore
  | overwrite
deriving Repr, DecidableEq

/-- The error kinds of the fetch pipeline. -/
inductive FetchError
  | unsupportedTarget
  | authError
  | resolveError
  | notFoundError
  | tagError
  | conflictError
  | ioError
deriving Repr, DecidableEq

/-- The per-track outcome. -/
inductive DownloadResult
  | success (path : String)
  | skipped (path : String)
  | failed (e : FetchError)
deriving Repr, DecidableEq

/-- The destination path of a track: a file in the destination directory whose
name derives from the unique track identity. -/
def destPath (dest : String) (t : Track) : String :=
  dest ++ "/" ++ t.id

/-- Modelled from the spec: the per-track processing step of the scheduler as
far as conflict resolution observes it.  `occupied` is the pre-existence test
of the destination path; under `error` a pre-existing path yields
Failed(ConflictError), under `ignore` it yields Skipped, under `overwrite` the
file is replaced and the track succeeds. -/
def processTrack (occupied : String → Bool) (dec : ConflictDecision)
    (dest : String) (t : Track) : DownloadResult :=
  if occupied (destPath dest t) then
    match dec with
    | .error => .failed .conflictError
    | .ignore => .skipped (destPath dest t)
    | .overwrite => .success (destPath dest t)
  else .success (destPath dest t)

/-- Modelled from the spec: the scheduler drains the whole worklist, emitting
one outcome per track; a failure never cancels the siblings. -/
def runFetchTracks (occupied : String → Bool) (dec : ConflictDecision)
    (dest : String) (tracks : List Track) : List DownloadResult :=
  tracks.map (processTrack occupied dec dest)

/-- Whether a per-track outcome counts as a failure. -/
def isFailed (r : DownloadResult) : Bool :=
  match r with
  | .failed _ => true
  | _ => false

/-- Modelled from the spec: the process exit indication, non-zero exactly when
some track ended Failed. -/
def fetchExitCode (results : List DownloadResult) : Nat :=
  if results.any isFailed then 1 else 0

/-- What a target resolved to: unsupported URL, failed authentication, or a
sequence of tracks in the resolver's yield order. -/
inductive TargetResolution
  | unsupported
  | authFailed
  | resolved (tracks : List Track)
deriving Repr, DecidableEq

/-- One entry of the FetchReport: either the single failure entry of an
unsupported or auth-failed target, or one per-track outcome. -/
inductive ReportEntry
  | targetError (target : String) (e : FetchError)
  | trackResult (target : String) (r : DownloadResult)
deriving Repr, DecidableEq

/-- Modelled from the spec: the block of report entries contributed by one
target — one failure entry for an unsupported or auth-failed target, one
outcome per track otherwise, in the resolver's yield order. -/
def targetEntries (occupied : String → Bool) (dec : ConflictDecision)
    (dest : String) (target : String) (res : TargetResolution) :
    List ReportEntry :=
  match res with
  | .unsupported => [.targetError target .unsupportedTarget]
  | .authFailed => [.targetError target .authError]
  | .resolved tracks =>
      tracks.map (fun t => .trackResult target (processTrack occupied dec dest t))

/-- Modelled from the spec: the FetchReport, the concatenation of the
per-target blocks in the caller-supplied target order. -/
def fetchReport (occupied : String → Bool) (dec : ConflictDecision)
    (dest : String) (targets : List (String × TargetResolution)) :
    List ReportEntry :=
  (targets.map (fun p => targetEntries occupied dec dest p.1 p.2)).flatten

/-- Whether a report entry is a per-track outcome. -/
def isTrackEntry (e : ReportEntry) : Bool :=
  match e with
  | .trackResult _ _ => true
  | _ => false

/-- Whether a report entry is the failure entry of a target. -/
def isErrorEntry (e : ReportEntry) : Bool :=
  match e with
  | .targetError _ _ => true
  | _ => false

/-- The number of per-track outcomes in a report. -/
def countTrackEntries (report : List ReportEntry) : Nat :=
  report.countP isTrackEntry

/-- The number of per-target failure entries in a report. -/
def countErrorEntries (report : List ReportEntry) : Nat :=
  report.countP isErrorEntry

/-- The total number of tracks the targets resolved to. -/
def trackTotal (targets : List (String × TargetResolution)) : Nat :=
  (targets.map (fun p => match p.2 with
    | .resolved tracks => tracks.length
    | _ => 0)).sum

/-- The number of unsupported or auth-failed targets. -/
def badTargetCount (targets : List (String × TargetResolution)) : Nat :=
  targets.countP (fun p => match p.2 with
    | .resolved _ => false
    | _ => true)

/-- Filesystem content lookup over a path-to-content association list. -/
def fsGet (fs : List (String × String)) (p : String) : Option String :=
  (fs.find? (fun e => e.1 == p)).map (fun e => e.2)

/-- Filesystem write: bind a path to content, replacing any previous binding. -/
def fsSet (fs : List (String × String)) (p v : String) :
    List (String × String) :=
  (p, v) :: fs.filter (fun e => !(e.1 == p))

/-- Filesystem removal of a path. -/
def fsRemove (fs : List (String × String)) (p : String) :
    List (String × String) :=
  fs.filter (fun e => !(e.1 == p))

/-- The temporary path used by the atomic overwrite: a sibling of the
destination in the same directory. -/
def tmpPath (dest : String) : String := dest ++ ".part"

/-- Modelled from the spec: the sequence of filesystem states the atomic
overwrite passes through — the initial state, the state with the new content
written to the temporary path, and the state after the rename of the
temporary path over the destination.  A crash exposes exactly one of these
states. -/
def overwriteStates (fs : List (String × String)) (dest content : String) :
    List (List (String × String)) :=
  [fs,
   fsSet fs (tmpPath dest) content,
   fsSet (fsRemove (fsSet fs (tmpPath dest) content) (tmpPath dest)) dest content]

/-- Modelled from the spec: the final filesystem state of the atomic
overwrite — write to the temporary path, then rename over the destination. -/
def overwriteWrite (fs : List (String × String)) (dest content : String) :
    List (String × String) :=
  fsSet (fsRemove (fsSet fs (tmpPath dest) content) (tmpPath dest)) dest content

/-- The state of the bounded worker pool: tracks not yet picked up, tracks a
worker is processing now, and finished tracks. -/
structure SchedState where
  pending : List Track
  active : List Track
  done : List Track
deriving Repr, DecidableEq

/-- Modelled from the spec: one transition of the bounded worker pool.  A free
worker may pull the next unit of work only while fewer than `L` tracks are in
flight; a worker may finish the track it is processing. -/
inductive SchedStep (L : Nat) : SchedState → SchedState → Prop
  | start (t : Track) (rest active finished : List Track) :
      active.length < L →
      SchedStep L ⟨t :: rest, active, finished⟩ ⟨rest, t :: active, finished⟩
  | finish (t : Track) (pending a1 a2 finished : List Track) :
      SchedStep L ⟨pending, a1 ++ t :: a2, finished⟩
        ⟨pending, a1 ++ a2, t :: finished⟩

/-- The states the worker pool can reach from a given state. -/
inductive SchedReach (L : Nat) (init : SchedState) : SchedState → Prop
  | refl : SchedReach L init init
  | tail (s1 s2 : SchedState) :
      SchedReach L init s1 → SchedStep L s1 s2 → SchedReach L init s2

/-- The initial state of an invocation: the whole worklist pending, no track
in flight. -/
def initState (worklist : List Track) : SchedState :=
  ⟨worklist, [], []⟩

/-- A sample track used to instantiate universally quantified theorems. -/
def sampleTrackA : Track :=
  ⟨"1", "Title A", "Artist", "Album", "cover-a", "audio-a"⟩

/-- A second sample track used to instantiate universally quantified
theorems. -/
def sampleTrackB : Track :=
  ⟨"2", "Title B", "Artist", "Album", "cover-b", "audio-b"⟩

theorem find?_filter_not {α : Type} (p : α → Bool) (l : List α) :
    (l.filter (fun a => !(p a))).find? p = none := by
  induction l with
  | nil => rfl
  | cons a l ih =>
    by_cases h : p a = true
    · simp [List.filter_cons, h, ih]
    · simp only [List.filter_cons, Bool.not_eq_true] at *
      simp [h, List.find?_cons_of_neg, ih]

theorem find?_filter_imp {α : Type} (p q : α → Bool) (l : List α)
    (h : ∀ a, p a = true → q a = true) :
    (l.filter q).find? p = l.find? p := by
  induction l with
  | nil => rfl
  | cons a l ih =>
    by_cases hq : q a = true
    · by_cases hp : p a = true
      · simp [List.filter_cons, hq, List.find?_cons_of_pos, hp]
      · simp [List.filter_cons, hq, List.find?_cons_of_neg, hp, ih]
    · have hp : ¬(p a = true) := fun hpa => hq (h a hpa)
      simp [List.filter_cons, hq, List.find?_cons_of_neg, hp, ih]

theorem storeGet_storeSet_same (s : List CookieRecord) (d k v : String) :
    storeGet (storeSet s d k v) d k = some v := by
  simp [storeGet, storeSet, List.find?_cons_of_pos]

theorem storeWF_storeSet (s : List CookieRecord) (d k v : String)
    (h : storeWF s) : storeWF (storeSet s d k v) := by
  unfold storeWF storeSet
  simp only [List.map_cons, List.nodup_cons]
  constructor
  · intro hmem
    rcases List.mem_map.mp hmem with ⟨r, hr, hEq⟩
    rcases List.mem_filter.mp hr with ⟨_, hpred⟩
    have h1 : r.1 = d := congrArg Prod.fst hEq
    have h2 : r.2.1 = k := congrArg Prod.snd hEq
    simp [h1, h2] at hpred
  · exact ((List.filter_sublist s).map _).nodup h

theorem storeWF_storeDeleteKey (s : List CookieRecord) (d k : String)
    (h : storeWF s) : storeWF (storeDeleteKey s d k) :=
  ((List.filter_sublist s).map _).nodup h

end Downloader

namespace Downloader

theorem fetchReport_cons (occupied : String → Bool) (dec : ConflictDecision)
    (dest : String) (p : String × TargetResolution)
    (rest : List (String × TargetResolution)) :
    fetchReport occupied dec dest (p :: rest) =
      targetEntries occupied dec dest p.1 p.2 ++
        fetchReport occupied dec dest rest := by
  simp [fetchReport]

theorem fetchReport_append (occupied : String → Bool) (dec : ConflictDecision)
    (dest : String) (l1 l2 : List (String × TargetResolution)) :
    fetchReport occupied dec dest (l1 ++ l2) =
      fetchReport occupied dec dest l1 ++ fetchReport occupied dec dest l2 := by
  simp [fetchReport]

theorem countTrack_targetEntries (occupied : String → Bool)
    (dec : ConflictDecision) (dest target : String) (res : TargetResolution) :
    countTrackEntries (targetEntries occupied dec dest target res) =
      (match res with
       | .resolved tracks => tracks.length
       | _ => 0) := by
  cases res with
  | unsupported => rfl
  | authFailed => rfl
  | resolved tracks =>
    unfold countTrackEntries targetEntries
    rw [List.countP_map]
    exact List.countP_eq_length.mpr (fun a _ => rfl)

theorem countError_targetEntries (occupied : String → Bool)
    (dec : ConflictDecision) (dest target : String) (res : TargetResolution) :
    countErrorEntries (targetEntries occupied dec dest target res) =
      (match res with
       | .resolved _ => 0
       | _ => 1) := by
  cases res with
  | unsupported => rfl
  | authFailed => rfl
  | resolved tracks =>
    unfold countErrorEntries targetEntries
    rw [List.countP_map]
    exact List.countP_eq_zero.mpr (fun a _ => Bool.false_ne_true)

theorem countTrack_fetchReport (occupied : String → Bool)
    (dec : ConflictDecision) (dest : String)
    (targets : List (String × TargetResolution)) :
    countTrackEntries (fetchReport occupied dec dest targets) =
      trackTotal targets := by
  induction targets with
  | nil => rfl
  | cons p rest ih =>
    rw [fetchReport_cons]
    unfold countTrackEntries at *
    rw [List.countP_append]
    have h1 := countTrack_targetEntries occupied dec dest p.1 p.2
    unfold countTrackEntries at h1
    rw [h1, ih]
    simp [trackTotal]

theorem countError_fetchReport (occupied : String → Bool)
    (dec : ConflictDecision) (dest : String)
    (targets : List (String × TargetResolution)) :
    countErrorEntries (fetchReport occupied dec dest targets) =
      badTargetCount targets := by
  induction targets with
  | nil => rfl
  | cons p rest ih =>
    rw [fetchReport_cons]
    unfold countErrorEntries at *
    rw [List.countP_append]
    have h1 := countError_targetEntries occupied dec dest p.1 p.2
    unfold countErrorEntries at h1
    rw [h1, ih]
    unfold badTargetCount
    rw [List.countP_cons]
    cases hres : p.2 <;> simp [hres, Nat.add_comm]

theorem fsGet_fsSet_same (fs : List (String × String)) (p v : String) :
    fsGet (fsSet fs p v) p = some v := by
  simp [fsGet, fsSet, List.find?_cons_of_pos]

theorem fsGet_fsSet_other (fs : List (String × String)) (p q v : String)
    (h : ¬(q = p)) : fsGet (fsSet fs q v) p = fsGet fs p := by
  unfold fsGet fsSet
  rw [List.find?_cons_of_neg _ (by simpa using h),
      find?_filter_imp _ _ _ ?_]
  intro a ha
  have ha2 : a.1 = p := by simpa using ha
  have hne : ¬(a.1 = q) := fun hh => h (hh ▸ ha2)
  simpa using hne

theorem fsGet_fsRemove_same (fs : List (String × String)) (p : String) :
    fsGet (fsRemove fs p) p = none := by
  have h := find?_filter_not (fun e : String × String => e.1 == p) fs
  unfold fsGet fsRemove
  rw [h]
  rfl

theorem tmpPath_ne (dest : String) : ¬(tmpPath dest = dest) := by
  intro h
  have hlen := congrArg String.length h
  unfold tmpPath at hlen
  rw [String.length_append] at hlen
  have h5 : (".part" : String).length = 5 := rfl
  rw [h5] at hlen
  omega

/-- C5: the cookies command rejects an invocation whose arity requirements do
not hold — GET needs domain and key, SET needs domain, key and value, DELETE
needs the domain alone or the domain plus a key — and accepts the invocations
that satisfy them. -/
theorem cookies_arity (d k v : String) :
    (∀ key value, cookiesAccept "GET" none key value = false) ∧
    cookiesAccept "GET" (some d) none (some v) = false ∧
    cookiesAccept "GET" (some d) none none = false ∧
    cookiesAccept "GET" (some d) (some k) none = true ∧
    (∀ key value, cookiesAccept "SET" none key value = false) ∧
    cookiesAccept "SET" (some d) none none = false ∧
    cookiesAccept "SET" (some d) (some k) none = false ∧
    cookiesAccept "SET" (some d) (some k) (some v) = true ∧
    (∀ key value, cookiesAccept "DELETE" none key value = false) ∧
    cookiesAccept "DELETE" (some d) none none = true ∧
    cookiesAccept "DELETE" (some d) (some k) none = true :=
  ⟨fun _ _ => rfl, rfl, rfl, rfl, fun _ _ => rfl, rfl, rfl, rfl,
   fun _ _ => rfl, rfl, rfl⟩

/-- C6: setting a cookie and then getting it returns the stored value;
deleting it afterwards makes the get return absent; a second set on the same
(domain, key) pair overwrites the value; and both set and delete preserve the
uniqueness of (domain, key) pairs. -/
theorem cookies_store_round_trip (s : List CookieRecord) (d k v : String) :
    storeGet (storeSet s d k v) d k = some v ∧
    storeGet (storeDeleteKey (storeSet s d k v) d k) d k = none ∧
    (∀ v2, storeGet (storeSet (storeSet s d k v) d k v2) d k = some v2) ∧
    (storeWF s → storeWF (storeSet s d k v)) ∧
    (storeWF s → storeWF (storeDeleteKey s d k)) := by
  refine ⟨storeGet_storeSet_same s d k v, ?_,
    fun v2 => storeGet_storeSet_same (storeSet s d k v) d k v2,
    storeWF_storeSet s d k v, storeWF_storeDeleteKey s d k⟩
  have hfind := find?_filter_not
    (fun r : CookieRecord => r.1 == d && r.2.1 == k) (storeSet s d k v)
  unfold storeGet storeDeleteKey
  rw [hfind]
  rfl

/-- Witness for C6 at a concrete store, domain, key and value. -/
theorem cookies_store_round_trip_witness :
    storeGet (storeSet [] "yandex.ru" "Session_id" "abc") "yandex.ru"
        "Session_id" = some "abc" ∧
    storeWF (storeSet [] "yandex.ru" "Session_id" "abc") :=
  ⟨(cookies_store_round_trip [] "yandex.ru" "Session_id" "abc").1,
   (cookies_store_round_trip [] "yandex.ru" "Session_id" "abc").2.2.2.1
     (by decide)⟩

/-- C7: for every non-empty domain that is not a supported host domain, the
about command prints exactly the unsupported-domain message and exits with
code 0. -/
theorem about_unknown_domain (d : String)
    (hsup : d ∉ supportedDomains) (hne : d ≠ "") :
    aboutOutput d = d ++ " domain is not supported." ∧ aboutExitCode d = 0 := by
  refine ⟨?_, rfl⟩
  have hy : ¬(d = "yandex.ru") := fun h => hsup (by simp [supportedDomains, h])
  simp [aboutOutput, hostInfo, hne, hy]

/-- C8: every accepted fetch invocation carries a concurrency limit in the
closed interval from 1 to 8 — the supplied value passes IntRange(1, 8) and
the default is 4. -/
theorem fetch_limit_in_range (targets : List String) (limit : Option Int)
    (conflict : Option String) (dest : Option String) (args : FetchArgs)
    (h : parseFetch targets limit conflict dest = some args) :
    1 ≤ args.limit ∧ args.limit ≤ 8 := by
  unfold parseFetch at h
  cases dest with
  | none => cases h
  | some d =>
    cases limit with
    | none =>
      simp only [] at h
      cases hc : (match conflict with
                  | none => some "ERROR"
                  | some c => choiceMatch conflictChoices c) with
      | none => rw [hc] at h; cases h
      | some c =>
        rw [hc] at h
        cases h
        exact ⟨by norm_num, by norm_num⟩
    | some n =>
      simp only [intRange] at h
      by_cases hr : 1 ≤ n ∧ n ≤ 8
      · rw [if_pos hr] at h
        cases hc : (match conflict with
                    | none => some "ERROR"
                    | some c => choiceMatch conflictChoices c) with
        | none => rw [hc] at h; cases h
        | some c =>
          rw [hc] at h
          cases h
          exact hr
      · rw [if_neg hr] at h
        cases h

/-- Witness for C8 at a concrete accepted invocation. -/
theorem fetch_limit_in_range_witness :
    1 ≤ (FetchArgs.mk ["https://music.yandex.ru/album/1"] 8 "ERROR"
      "/tmp/out").limit ∧
    (FetchArgs.mk ["https://music.yandex.ru/album/1"] 8 "ERROR"
      "/tmp/out").limit ≤ 8 :=
  fetch_limit_in_range ["https://music.yandex.ru/album/1"] (some 8) none
    (some "/tmp/out") ⟨["https://music.yandex.ru/album/1"], 8, "ERROR", "/tmp/out"⟩
    rfl

/-- C9: a fetch invocation with zero targets is accepted — the targets
argument is variadic with no minimum count, so only the destination is
required and the parsed argument list is empty. -/
theorem fetch_accepts_zero_targets (d : String) :
    parseFetch [] none none (some d) = some ⟨[], 4, "ERROR", d⟩ := rfl

/-- C10: the fetch conflict option and the cookies action argument are
matched case-insensitively — every spelling that lowers to error, ignore or
override (respectively delete, get or set) is accepted and normalised to the
corresponding canonical choice. -/
theorem choices_case_insensitive (s : String) :
    (lowerStr s = "error" → choiceMatch conflictChoices s = some "ERROR") ∧
    (lowerStr s = "ignore" → choiceMatch conflictChoices s = some "IGNORE") ∧
    (lowerStr s = "override" → choiceMatch conflictChoices s = some "OVERRIDE") ∧
    (lowerStr s = "delete" → choiceMatch cookieActionChoices s = some "DELETE") ∧
    (lowerStr s = "get" → choiceMatch cookieActionChoices s = some "GET") ∧
    (lowerStr s = "set" → choiceMatch cookieActionChoices s = some "SET") := by
  refine ⟨?_, ?_, ?_, ?_, ?_, ?_⟩ <;> intro h <;>
    simp only [choiceMatch, conflictChoices, cookieActionChoices, h] <;> decide

/-- Witness for C10 at concrete lowercase and mixed-case spellings. -/
theorem choices_case_insensitive_witness :
    choiceMatch conflictChoices "ignore" = some "IGNORE" ∧
    choiceMatch cookieActionChoices "Set" = some "SET" :=
  ⟨(choices_case_insensitive "ignore").2.1 (by decide),
   (choices_case_insensitive "Set").2.2.2.2.2 (by decide)⟩

/-- C1: under the ERROR conflict policy, a track whose destination path
already exists ends Failed(ConflictError); the invocation still emits one
outcome per track of the worklist (it does not abort), and the exit
indication is non-zero. -/
theorem fetch_error_policy_continues (occupied : String → Bool) (dest : String)
    (tracks : List Track) (t : Track)
    (hmem : t ∈ tracks) (hocc : occupied (destPath dest t) = true) :
    processTrack occupied .error dest t = .failed .conflictError ∧
    (runFetchTracks occupied .error dest tracks).length = tracks.length ∧
    (∀ u ∈ tracks,
      processTrack occupied .error dest u ∈
        runFetchTracks occupied .error dest tracks) ∧
    fetchExitCode (runFetchTracks occupied .error dest tracks) ≠ 0 := by
  have hp : processTrack occupied .error dest t = .failed .conflictError := by
    simp [processTrack, hocc]
  refine ⟨hp, by simp [runFetchTracks], fun u hu => List.mem_map_of_mem _ hu, ?_⟩
  have hmem2 : DownloadResult.failed .conflictError ∈
      runFetchTracks occupied .error dest tracks := by
    rw [← hp]
    exact List.mem_map_of_mem _ hmem
  have hany : (runFetchTracks occupied .error dest tracks).any isFailed = true :=
    List.any_eq_true.mpr ⟨_, hmem2, rfl⟩
  simp [fetchExitCode, hany]

/-- Witness for C1 at a two-track worklist whose first destination is
occupied. -/
theorem fetch_error_policy_continues_witness :
    processTrack (fun p => p == "/out/1") .error "/out" sampleTrackA =
        .failed .conflictError ∧
    (runFetchTracks (fun p => p == "/out/1") .error "/out"
        [sampleTrackA, sampleTrackB]).length =
      ([sampleTrackA, sampleTrackB] : List Track).length ∧
    (∀ u ∈ ([sampleTrackA, sampleTrackB] : List Track),
      processTrack (fun p => p == "/out/1") .error "/out" u ∈
        runFetchTracks (fun p => p == "/out/1") .error "/out"
          [sampleTrackA, sampleTrackB]) ∧
    fetchExitCode (runFetchTracks (fun p => p == "/out/1") .error "/out"
        [sampleTrackA, sampleTrackB]) ≠ 0 :=
  fetch_error_policy_continues (fun p => p == "/out/1") "/out"
    [sampleTrackA, sampleTrackB] sampleTrackA (by decide) (by decide)

/-- C2: in every state the bounded worker pool can reach from the initial
state of an invocation, at most L tracks are being processed concurrently. -/
theorem sched_active_le_limit (L : Nat) (worklist : List Track) (s : SchedState)
    (h : SchedReach L (initState worklist) s) : s.active.length ≤ L := by
  induction h with
  | refl => simp [initState]
  | tail s1 s2 hreach hstep ih =>
    cases hstep with
    | start t rest active finished hlt => simpa using hlt
    | finish t pending a1 a2 finished =>
      simp only [List.length_append, List.length_cons] at ih ⊢
      omega

/-- Witness for C2: a concrete reachable state with one track in flight under
limit 2. -/
theorem sched_active_le_limit_witness :
    (SchedState.mk [sampleTrackB] [sampleTrackA] []).active.length ≤ 2 :=
  sched_active_le_limit 2 [sampleTrackA, sampleTrackB]
    ⟨[sampleTrackB], [sampleTrackA], []⟩
    (SchedReach.tail _ _ SchedReach.refl
      (SchedStep.start sampleTrackA [sampleTrackB] [] [] (by decide)))

/-- C3: the FetchReport holds exactly one outcome per resolved track plus
exactly one entry per unsupported or auth-failed target; its entries are
grouped by originating target in the caller-supplied target order, and within
a resolved target the outcomes follow the resolver's yield order. -/
theorem fetch_report_shape (occupied : String → Bool) (dec : ConflictDecision)
    (dest : String) (targets : List (String × TargetResolution)) :
    countTrackEntries (fetchReport occupied dec dest targets) =
        trackTotal targets ∧
    countErrorEntries (fetchReport occupied dec dest targets) =
        badTargetCount targets ∧
    (∀ pre t res post, targets = pre ++ (t, res) :: post →
      fetchReport occupied dec dest targets =
        fetchReport occupied dec dest pre ++
          targetEntries occupied dec dest t res ++
          fetchReport occupied dec dest post) ∧
    (∀ (target : String) (tracks : List Track) (i : Nat),
      (targetEntries occupied dec dest target (.resolved tracks))[i]? =
        tracks[i]?.map
          (fun u => ReportEntry.trackResult target
            (processTrack occupied dec dest u))) := by
  refine ⟨countTrack_fetchReport occupied dec dest targets,
    countError_fetchReport occupied dec dest targets, ?_, ?_⟩
  · intro pre t res post hsplit
    subst hsplit
    rw [fetchReport_append, fetchReport_cons, List.append_assoc]
  · intro target tracks i
    show (List.map (fun t => ReportEntry.trackResult target
        (processTrack occupied dec dest t)) tracks)[i]? = _
    exact List.getElem?_map _ _ _

/-- Witness for C3: the grouping equation at a concrete two-target list. -/
theorem fetch_report_shape_witness :
    fetchReport (fun _ => false) .ignore "/out"
        [("u1", .unsupported), ("u2", .resolved [sampleTrackA])] =
      fetchReport (fun _ => false) .ignore "/out" [("u1", .unsupported)] ++
        targetEntries (fun _ => false) .ignore "/out" "u2"
          (.resolved [sampleTrackA]) ++
        fetchReport (fun _ => false) .ignore "/out" [] :=
  (fetch_report_shape (fun _ => false) .ignore "/out"
      [("u1", .unsupported), ("u2", .resolved [sampleTrackA])]).2.2.1
    [("u1", .unsupported)] "u2" (.resolved [sampleTrackA]) [] rfl

/-- C4: the atomic overwrite leaves exactly the new content at the
destination with no temporary file remaining, and every filesystem state it
passes through — hence every state a crash can expose — holds either the old
binding or the full new content at the destination, never a truncation. -/
theorem overwrite_atomic (fs : List (String × String)) (dest content : String) :
    fsGet (overwriteWrite fs dest content) dest = some content ∧
    fsGet (overwriteWrite fs dest content) (tmpPath dest) = none ∧
    (∀ s ∈ overwriteStates fs dest content,
      fsGet s dest = fsGet fs dest ∨ fsGet s dest = some content) := by
  refine ⟨fsGet_fsSet_same _ _ _, ?_, ?_⟩
  · unfold overwriteWrite
    rw [fsGet_fsSet_other _ _ _ _ (fun hh => tmpPath_ne dest hh.symm)]
    exact fsGet_fsRemove_same _ _
  · intro s hs
    simp only [overwriteStates, List.mem_cons, List.mem_singleton,
      List.not_mem_nil, or_false] at hs
    rcases hs with h0 | h1 | h2
    · subst h0; exact Or.inl rfl
    · subst h1
      exact Or.inl (fsGet_fsSet_other _ _ _ _ (tmpPath_ne dest))
    · subst h2; exact Or.inr (fsGet_fsSet_same _ _ _)

/-- Witness for C4: the mid-write state of a concrete overwrite. -/
theorem overwrite_atomic_witness :
    fsGet (fsSet [] (tmpPath "/out/1") "new") "/out/1" =
        fsGet ([] : List (String × String)) "/out/1" ∨
    fsGet (fsSet [] (tmpPath "/out/1") "new") "/out/1" = some "new" :=
  (overwrite_atomic [] "/out/1" "new").2.2
    (fsSet [] (tmpPath "/out/1") "new") (by decide)

/-- Witness for C7 at the spec's example domain. -/
theorem about_unknown_domain_witness :
    "unknown.example.com" ∉ supportedDomains ∧
    ("unknown.example.com" : String) ≠ "" ∧
    (aboutOutput "unknown.example.com" =
        "unknown.example.com" ++ " domain is not supported." ∧
      aboutExitCode "unknown.example.com" = 0) :=
  ⟨by decide, by decide,
   about_unknown_domain "unknown.example.com" (by decide) (by decide)⟩

end Downloader
